import Mathlib

/-!
The timer scheduler of `src/async/timer.cpp`.

A shallow embedding of `async::Timer` (the periodic / fire-once timer scheduler)
together with the environment it talks to: the heap of `deadline_timer`
objects, the reactor's list of pending waits, the wall clock, and the task
queues of the `Thread` objects that callbacks are posted to.

Conventions of the embedding.

* Every member function is one atomic step of the state (each of its locked
  sections runs to completion); `CreateTimerTask` is additionally split into the
  three blocks it is written as (`allocTimerId`, `armTimer`, `insertTimer`).
* The C++ `int` counter `timer_id_` is an `Int` kept inside the range of a
  32-bit `int`: the increment `timer_id_++` wraps around from 2147483647 to
  -2147483648 (`wrapInt`), which is what the compiled increment does.
* Objects (`deadline_timer`, bound callbacks, `Thread`) are represented by
  their identity, a natural number.
-/

namespace async

/-- An instant or a duration, in microsecond ticks (the resolution of `boost::posix_time`). -/
abbrev Time := Int

/-- Identity of a heap allocated `boost::asio::deadline_timer`. -/
abbrev TimerRef := Nat

/-- Identity of a bound `boost::function<void(void)>`. -/
abbrev Task := Nat

/-- Identity of a `Thread` (an execution context with its own task queue). -/
abbrev ThreadRef := Nat

/-- The duration `boost::posix_time::seconds(n)`. -/
def seconds (n : Int) : Time := n * 1000000

/-- A wait registered with `async_wait`: the arguments that `boost::bind` froze
for the later call of `Timer::TimerCallBack`. -/
structure Wait where
  timer : TimerRef
  timer_id : Int
  delay_seconds : Int
  task : Task
  task_thread : ThreadRef
deriving DecidableEq, Repr

/-- The scheduler and its environment.
`timer_id_` and `timer_list_` are the members of `Timer`; `clock`, `next_timer`
and `expires_at` are the wall clock and the heap of `deadline_timer` objects;
`pending` are the waits the reactor (`timer_device_.io_service_`) still has to
complete, oldest first; `queues` gives, per `Thread`, the tasks posted to it in
posting order. -/
structure State where
  timer_id_ : Int
  timer_list_ : List (Int × TimerRef)
  clock : Time
  next_timer : TimerRef
  expires_at : TimerRef → Time
  pending : List Wait
  queues : ThreadRef → List Task

/-- Lookup in the registry: `timer_list_.find(k)`, with `none` for `end()`. -/
def mapFind (k : Int) : List (Int × TimerRef) → Option TimerRef
  | [] => none
  | e :: m => if e.1 = k then some e.2 else mapFind k m

/-- Removal from the registry: `timer_list_.erase(k)`. -/
def mapErase (k : Int) (m : List (Int × TimerRef)) : List (Int × TimerRef) :=
  m.filter (fun e => decide (e.1 ≠ k))

/-- Assignment through `operator[]`: `timer_list_[k] = v` (inserts or overwrites). -/
def mapAssign (k : Int) (v : TimerRef) (m : List (Int × TimerRef)) : List (Int × TimerRef) :=
  (k, v) :: mapErase k m

/-- The constructor `Timer::Timer() : timer_id_(1)`, in an idle environment. -/
def Timer.new : State where
  timer_id_ := 1
  timer_list_ := []
  clock := 0
  next_timer := 0
  expires_at := fun _ => 0
  pending := []
  queues := fun _ => []

/-- The expression `new deadline_timer(io_service_, d)`: a fresh timer object
whose expiry is the current time plus `d`. -/
def newDeadlineTimer (d : Time) (s : State) : TimerRef × State :=
  (s.next_timer,
   { s with next_timer := s.next_timer + 1
            expires_at := fun r => if r = s.next_timer then s.clock + d else s.expires_at r })

/-- The setter `timer->expires_at(t)`. -/
def setExpiresAt (timer : TimerRef) (t : Time) (s : State) : State :=
  { s with expires_at := fun r => if r = timer then t else s.expires_at r }

/-- The call `timer->async_wait(boost::bind(&Timer::TimerCallBack, this, _1, ...))`:
the reactor gets one more wait to complete. -/
def asyncWait (w : Wait) (s : State) : State :=
  { s with pending := s.pending ++ [w] }

/-- Modelled from the spec: `Thread::PostTask` (declared in `async/thread.h`,
which is not among the sources).  It enqueues the callback at the end of the
FIFO queue of that execution context and returns. -/
def PostTask (task : Task) (task_thread : ThreadRef) (s : State) : State :=
  { s with queues := fun c => if c = task_thread then s.queues c ++ [task] else s.queues c }

/-- The value of an arithmetic result as a 32-bit `int` (two's complement
wrap-around). -/
def wrapInt (x : Int) : Int :=
  (x + 2147483648) % 4294967296 - 2147483648

/-- First block of `CreateTimerTask` (lines 35-37): `int timer_id = timer_id_++;`,
the increment being that of a 32-bit `int`. -/
def allocTimerId (s : State) : Int × State :=
  (s.timer_id_, { s with timer_id_ := wrapInt (s.timer_id_ + 1) })

/-- Second block of `CreateTimerTask` (lines 39-42): create the timer object and
register the wait bound to `timer_id`. -/
def armTimer (timer_id : Int) (task : Task) (delay_seconds : Int) (task_thread : ThreadRef)
    (s : State) : TimerRef × State :=
  let r := newDeadlineTimer (seconds delay_seconds) s
  (r.1, asyncWait ⟨r.1, timer_id, delay_seconds, task, task_thread⟩ r.2)

/-- Third block of `CreateTimerTask` (lines 44-46): `timer_list_[timer_id] = timer;`. -/
def insertTimer (timer_id : Int) (timer : TimerRef) (s : State) : State :=
  { s with timer_list_ := mapAssign timer_id timer s.timer_list_ }

/-- The member `int Timer::CreateTimerTask(task, delay_seconds, task_thread)`. -/
def CreateTimerTask (task : Task) (delay_seconds : Int) (task_thread : ThreadRef)
    (s : State) : Int × State :=
  let a := allocTimerId s
  let t := armTimer a.1 task delay_seconds task_thread a.2
  (a.1, insertTimer a.1 t.1 t.2)

/-- The member `void Timer::CancelTimerTask(timer_id)`. -/
def CancelTimerTask (timer_id : Int) (s : State) : State :=
  { s with timer_list_ := mapErase timer_id s.timer_list_ }

/-- The member `void Timer::CreateOnceTimerTask(task, delay_seconds, task_thread)`:
the wait is bound to the id `0`. -/
def CreateOnceTimerTask (task : Task) (delay_seconds : Int) (task_thread : ThreadRef)
    (s : State) : State :=
  let r := newDeadlineTimer (seconds delay_seconds) s
  asyncWait ⟨r.1, 0, delay_seconds, task, task_thread⟩ r.2

/-- The member `void Timer::TimerCallBack(err, timer, timer_id, delay_seconds, task, task_thread)`.
The error code is received and never inspected. -/
def TimerCallBack (_err : Int) (timer : TimerRef) (timer_id : Int) (delay_seconds : Int)
    (task : Task) (task_thread : ThreadRef) (s : State) : State :=
  if timer_id ≠ 0 ∧ mapFind timer_id s.timer_list_ = none then
    s
  else
    let s1 := PostTask task task_thread s
    if timer_id ≠ 0 then
      let s2 := setExpiresAt timer (s1.expires_at timer + seconds delay_seconds) s1
      asyncWait ⟨timer, timer_id, delay_seconds, task, task_thread⟩ s2
    else
      s1

/-- The reactor completes the wait at position `i` of its pending list: the wait
is consumed and its bound handler is called.  Nothing happens when there is no
such wait. -/
def complete (i : Nat) (err : Int) (s : State) : State :=
  match s.pending.get? i with
  | none => s
  | some w =>
    TimerCallBack err w.timer w.timer_id w.delay_seconds w.task w.task_thread
      { s with pending := s.pending.eraseIdx i }

/-- The steps taken on a scheduler: the three public members, a call of the
completion handler (with arbitrary arguments, or as the completion of a pending
wait), and the passing of time. -/
inductive Op where
  | create (task : Task) (delay_seconds : Int) (task_thread : ThreadRef)
  | createOnce (task : Task) (delay_seconds : Int) (task_thread : ThreadRef)
  | cancel (timer_id : Int)
  | callBack (err : Int) (timer : TimerRef) (timer_id : Int) (delay_seconds : Int)
      (task : Task) (task_thread : ThreadRef)
  | expire (i : Nat) (err : Int)
  | tick (now : Time)
deriving DecidableEq, Repr

/-- One completed step. -/
def step (s : State) : Op → State
  | .create task d th => (CreateTimerTask task d th s).2
  | .createOnce task d th => CreateOnceTimerTask task d th s
  | .cancel id => CancelTimerTask id s
  | .callBack err timer id d task th => TimerCallBack err timer id d task th s
  | .expire i err => complete i err s
  | .tick now => { s with clock := now }

/-- A finite sequence of completed steps, first step first. -/
def run (ops : List Op) (s : State) : State :=
  ops.foldl step s

/-- Whether a step is a call of `CreateTimerTask`. -/
def Op.isCreate : Op → Bool
  | .create _ _ _ => true
  | _ => false

/-- Number of `CreateTimerTask` calls in a sequence of steps. -/
def createCount (ops : List Op) : Nat :=
  ops.countP Op.isCreate

/-- The reactor completing the wait at position `i` once per observation, each
time at the observed wall-clock time `o.1` and with the error code `o.2`. -/
def firings (i : Nat) : List (Time × Int) → List Op
  | [] => []
  | o :: os => Op.tick o.1 :: Op.expire i o.2 :: firings i os

/-- A state with one live periodic timer (id 1) and its pending wait. -/
def sampleState : State := (CreateTimerTask 7 2 3 Timer.new).2

/-- The states a scheduler can be in: those produced from a freshly constructed
Timer by finitely many completed steps. -/
def Reachable (s : State) : Prop :=
  ∃ ops : List Op, run ops Timer.new = s

/-- The states reached from a freshly constructed Timer while the id counter has
not yet left the positive range of `int`: fewer than 2147483647 calls of
`CreateTimerTask` were made. -/
def ReachableInRange (s : State) : Prop :=
  ∃ ops : List Op, createCount ops < 2147483647 ∧ run ops Timer.new = s

/-- The state of a Timer on which `CreateTimerTask` was called 4294967295 times:
the counter has gone once around the range of `int`. -/
def wrappedState : State :=
  run (List.replicate 4294967295 (Op.create 7 1 3)) Timer.new

/-- Whether a step is a further run of a completion handler for `id`: a call of
`TimerCallBack` bound to `id`, or the reactor completing position `i` (where the
wait of that timer sits); the clock may also move. -/
def Op.isHandlerRun (id : Int) (i : Nat) : Op → Bool
  | .callBack _ _ id2 _ _ _ => decide (id2 = id)
  | .expire j _ => decide (j = i)
  | .tick _ => true
  | _ => false

/-- The timer object that a call `CreateTimerTask(task, d, th)` made in state
`s` creates (second block of the function). -/
def createdTimer (task : Task) (d : Int) (th : ThreadRef) (s : State) : TimerRef :=
  (armTimer (allocTimerId s).1 task d th (allocTimerId s).2).1

/-- The ledger of a run: `issued ops k h` says that some `CreateTimerTask` call of
the run returned `k` after creating the timer object `h`, and that no later
step of the run is `CancelTimerTask(k)`. -/
def issued (ops : List Op) (k : Int) (h : TimerRef) : Prop :=
  ∃ (pre : List Op) (task : Task) (d : Int) (th : ThreadRef) (post : List Op),
    ops = pre ++ Op.create task d th :: post
    ∧ (CreateTimerTask task d th (run pre Timer.new)).1 = k
    ∧ createdTimer task d th (run pre Timer.new) = h
    ∧ Op.cancel k ∉ post

/-- Well-formedness of the registry against the id counter. -/
def RegistryOk (s : State) : Prop :=
  1 ≤ s.timer_id_
  ∧ (∀ e ∈ s.timer_list_, 1 ≤ e.1 ∧ e.1 < s.timer_id_)
  ∧ (s.timer_list_.map Prod.fst).Nodup

/-- Whether the reactor may complete the wait at position `i` now: the wait is
there and the expiry of its timer has been reached. -/
def isDue (i : Nat) (s : State) : Bool :=
  match s.pending.get? i with
  | none => false
  | some w => decide (s.expires_at w.timer ≤ s.clock)

/-- The state in the middle of `CreateTimerTask(task, d, th)`: the first two
blocks have run (id allocated, timer armed), the third (the insertion into
`timer_list_`) has not. -/
def armed (task : Task) (d : Int) (th : ThreadRef) (s : State) : State :=
  (armTimer (allocTimerId s).1 task d th (allocTimerId s).2).2

/-- The call `CreateTimerTask(task, d, th)` overtaken by the reactor thread: after
the second block, and before the calling thread takes the lock for the third,
the clock shows `now` and the reactor completes the wait just registered (with
error code `err`); then the third block runs.  The result is the id returned
to the caller and the state left behind. -/
def createOvertaken (task : Task) (d : Int) (th : ThreadRef) (now : Time) (err : Int)
    (s : State) : Int × State :=
  let a := allocTimerId s
  let t := armTimer a.1 task d th a.2
  let u := complete a.2.pending.length err { t.2 with clock := now }
  (a.1, insertTimer a.1 t.1 u)

/-- Whether a step is a direct call of the completion handler, as opposed to the
reactor completing a pending wait. -/
def Op.isCallBack : Op → Bool
  | .callBack _ _ _ _ _ _ => true
  | _ => false

/-- Every pending wait is bound to an id below the counter. -/
def PendingOk (s : State) : Prop :=
  ∀ w ∈ s.pending, w.timer_id < s.timer_id_

/-! Registry lemmas. -/

theorem mapFind_mapErase_self (k : Int) (m : List (Int × TimerRef)) :
    mapFind k (mapErase k m) = none := by
  induction m with
  | nil => rfl
  | cons e m ih =>
    by_cases h : e.1 = k
    · simpa [mapErase, List.filter_cons, h] using ih
    · simpa [mapErase, List.filter_cons, h, mapFind] using ih

theorem mapFind_mapErase_ne {k j : Int} (h : k ≠ j) (m : List (Int × TimerRef)) :
    mapFind k (mapErase j m) = mapFind k m := by
  induction m with
  | nil => rfl
  | cons e m ih =>
    obtain ⟨a, b⟩ := e
    by_cases hj : a = j
    · subst hj
      have hk : ¬ a = k := fun e => h e.symm
      simpa [mapErase, List.filter_cons, mapFind, hk] using ih
    · by_cases hk : a = k
      · subst hk
        simp [mapErase, List.filter_cons, hj, mapFind]
      · simpa [mapErase, List.filter_cons, hj, mapFind, hk] using ih

theorem mapFind_eq_none_iff (k : Int) (m : List (Int × TimerRef)) :
    mapFind k m = none ↔ ∀ e ∈ m, e.1 ≠ k := by
  induction m with
  | nil => simp [mapFind]
  | cons e m ih =>
    by_cases hk : e.1 = k
    · simp [mapFind, hk]
    · simp [mapFind, hk, ih]

theorem mapErase_of_absent {k : Int} {m : List (Int × TimerRef)} (h : mapFind k m = none) :
    mapErase k m = m := by
  rw [mapFind_eq_none_iff] at h
  unfold mapErase
  rw [List.filter_eq_self]
  intro e he
  simpa using h e he

theorem mapErase_mapErase (k : Int) (m : List (Int × TimerRef)) :
    mapErase k (mapErase k m) = mapErase k m :=
  mapErase_of_absent (mapFind_mapErase_self k m)

theorem mapFind_mapAssign_self (k : Int) (v : TimerRef) (m : List (Int × TimerRef)) :
    mapFind k (mapAssign k v m) = some v := by
  simp [mapAssign, mapFind]

theorem mapFind_mapAssign_ne {k j : Int} (h : k ≠ j) (v : TimerRef) (m : List (Int × TimerRef)) :
    mapFind k (mapAssign j v m) = mapFind k m := by
  have hj : ¬ j = k := fun e => h e.symm
  simp [mapAssign, mapFind, hj, mapFind_mapErase_ne h]

/-! What each step does to the members of `Timer`. -/

theorem TimerCallBack_timer_id_ (err : Int) (timer : TimerRef) (id d : Int) (task : Task)
    (th : ThreadRef) (s : State) :
    (TimerCallBack err timer id d task th s).timer_id_ = s.timer_id_ := by
  unfold TimerCallBack
  split
  · rfl
  · split <;> rfl

theorem TimerCallBack_timer_list_ (err : Int) (timer : TimerRef) (id d : Int) (task : Task)
    (th : ThreadRef) (s : State) :
    (TimerCallBack err timer id d task th s).timer_list_ = s.timer_list_ := by
  unfold TimerCallBack
  split
  · rfl
  · split <;> rfl

theorem complete_timer_id_ (i : Nat) (err : Int) (s : State) :
    (complete i err s).timer_id_ = s.timer_id_ := by
  unfold complete
  split
  · rfl
  · rw [TimerCallBack_timer_id_]

theorem complete_timer_list_ (i : Nat) (err : Int) (s : State) :
    (complete i err s).timer_list_ = s.timer_list_ := by
  unfold complete
  split
  · rfl
  · rw [TimerCallBack_timer_list_]

theorem wrapInt_of_range {x : Int} (h1 : -2147483648 ≤ x) (h2 : x < 2147483648) :
    wrapInt x = x := by
  unfold wrapInt
  omega

theorem wrapInt_range (x : Int) : -2147483648 ≤ wrapInt x ∧ wrapInt x < 2147483648 := by
  unfold wrapInt
  omega

theorem wrapInt_wrapInt_add (x y : Int) : wrapInt (wrapInt x + y) = wrapInt (x + y) := by
  unfold wrapInt
  omega

theorem step_timer_id_ (s : State) (op : Op) :
    (step s op).timer_id_ = if op.isCreate then wrapInt (s.timer_id_ + 1) else s.timer_id_ := by
  cases op with
  | create task d th => rfl
  | createOnce task d th => simp [step, CreateOnceTimerTask, asyncWait, newDeadlineTimer, Op.isCreate]
  | cancel id => simp [step, CancelTimerTask, Op.isCreate]
  | callBack err timer id d task th => simp [step, TimerCallBack_timer_id_, Op.isCreate]
  | expire i err => simp [step, complete_timer_id_, Op.isCreate]
  | tick now => simp [step, Op.isCreate]

theorem run_append (xs ys : List Op) (s : State) :
    run (xs ++ ys) s = run ys (run xs s) := by
  simp [run, List.foldl_append]

theorem run_cons (op : Op) (ops : List Op) (s : State) :
    run (op :: ops) s = run ops (step s op) := rfl

/-- The counter after a run: the start value plus the number of
`CreateTimerTask` calls, as a 32-bit `int`. -/
theorem run_timer_id_ (ops : List Op) :
    ∀ s : State, -2147483648 ≤ s.timer_id_ → s.timer_id_ < 2147483648 →
      (run ops s).timer_id_ = wrapInt (s.timer_id_ + (createCount ops : Int)) := by
  induction ops with
  | nil =>
    intro s h1 h2
    simp [run, createCount, wrapInt_of_range h1 h2]
  | cons op ops ih =>
    intro s h1 h2
    rw [run_cons]
    have hstep := step_timer_id_ s op
    cases h : op.isCreate
    · rw [h] at hstep
      simp only [Bool.false_eq_true, if_false] at hstep
      rw [ih _ (by rw [hstep]; exact h1) (by rw [hstep]; exact h2), hstep]
      simp [createCount, List.countP_cons, h]
    · rw [h] at hstep
      simp only [if_true] at hstep
      have hr := wrapInt_range (s.timer_id_ + 1)
      rw [ih _ (by rw [hstep]; exact hr.1) (by rw [hstep]; exact hr.2), hstep,
        wrapInt_wrapInt_add]
      congr 1
      simp [createCount, List.countP_cons, h]
      ring

/-- The counter of a fresh Timer after a run. -/
theorem run_new_timer_id_ (ops : List Op) :
    (run ops Timer.new).timer_id_ = wrapInt (1 + (createCount ops : Int)) :=
  run_timer_id_ ops Timer.new (by simp [Timer.new]) (by simp [Timer.new])

/-- As long as the counter stays below 2^31 it simply counts the calls. -/
theorem run_new_timer_id_small (ops : List Op) (h : createCount ops < 2147483647) :
    (run ops Timer.new).timer_id_ = 1 + (createCount ops : Int) := by
  rw [run_new_timer_id_]
  apply wrapInt_of_range <;> omega

theorem createCount_replicate_create (n : Nat) (task : Task) (d : Int) (th : ThreadRef) :
    createCount (List.replicate n (Op.create task d th)) = n := by
  induction n with
  | zero => rfl
  | succ n ih =>
    rw [List.replicate_succ]
    unfold createCount at ih ⊢
    rw [List.countP_cons, ih]
    simp [Op.isCreate]

theorem createCount_append (xs ys : List Op) :
    createCount (xs ++ ys) = createCount xs + createCount ys := by
  simp [createCount, List.countP_append]

/-! The reactor completing the most recently registered wait. -/

theorem complete_last (t : State) (p : List Wait) (w : Wait) (err : Int)
    (h : t.pending = p ++ [w]) :
    complete p.length err t
      = TimerCallBack err w.timer w.timer_id w.delay_seconds w.task w.task_thread
          { t with pending := p } := by
  have h1 : t.pending.get? p.length = some w := by rw [h]; simp
  have h2 : t.pending.eraseIdx p.length = p := by
    rw [h, List.eraseIdx_append_of_length_le (le_refl _)]; simp
  unfold complete
  rw [h1]
  simp only [h2]

theorem complete_out_of_range (t : State) (i : Nat) (err : Int) (h : t.pending.length ≤ i) :
    complete i err t = t := by
  have h1 : t.pending.get? i = none := by simp [h]
  unfold complete
  rw [h1]

/-- Completing the wait of a live periodic timer: one post, one re-arm. -/
theorem complete_live (t : State) (p : List Wait) (w : Wait) (err : Int)
    (h : t.pending = p ++ [w]) (hid : w.timer_id ≠ 0)
    (hlive : mapFind w.timer_id t.timer_list_ ≠ none) :
    (complete p.length err t).pending = p ++ [w]
    ∧ (complete p.length err t).timer_list_ = t.timer_list_
    ∧ (complete p.length err t).expires_at w.timer = t.expires_at w.timer + seconds w.delay_seconds
    ∧ (complete p.length err t).queues w.task_thread = t.queues w.task_thread ++ [w.task]
    ∧ ∀ c, c ≠ w.task_thread → (complete p.length err t).queues c = t.queues c := by
  have hc : ¬ (w.timer_id ≠ 0 ∧ mapFind w.timer_id t.timer_list_ = none) := fun hh => hlive hh.2
  rw [complete_last t p w err h]
  unfold TimerCallBack
  rw [if_neg hc, if_pos hid]
  simp [PostTask, asyncWait, setExpiresAt]

theorem run_firings_live (p : List Wait) (w : Wait) (hid : w.timer_id ≠ 0)
    (obs : List (Time × Int)) :
    ∀ t : State, t.pending = p ++ [w] → mapFind w.timer_id t.timer_list_ ≠ none →
      (run (firings p.length obs) t).pending = p ++ [w]
      ∧ (run (firings p.length obs) t).timer_list_ = t.timer_list_
      ∧ (run (firings p.length obs) t).expires_at w.timer
          = t.expires_at w.timer + (obs.length : Int) * seconds w.delay_seconds
      ∧ (run (firings p.length obs) t).queues w.task_thread
          = t.queues w.task_thread ++ List.replicate obs.length w.task
      ∧ ∀ c, c ≠ w.task_thread → (run (firings p.length obs) t).queues c = t.queues c := by
  induction obs with
  | nil => intro t hp _; simpa [firings, run] using hp
  | cons o obs ih =>
    intro t hp hlive
    have hstep : run (firings p.length (o :: obs)) t
        = run (firings p.length obs) (complete p.length o.2 { t with clock := o.1 }) := rfl
    obtain ⟨a1, a2, a3, a4, a5⟩ :=
      complete_live { t with clock := o.1 } p w o.2 hp hid hlive
    obtain ⟨b1, b2, b3, b4, b5⟩ := ih _ a1 (by rw [a2]; exact hlive)
    rw [hstep]
    refine ⟨b1, by rw [b2, a2], ?_, ?_, ?_⟩
    · rw [b3, a3]
      simp only [List.length_cons]
      push_cast
      ring
    · rw [b4, a4]
      simp [List.replicate_succ]
    · intro c hc
      rw [b5 c hc, a5 c hc]

theorem CreateTimerTask_facts (task : Task) (d : Int) (th : ThreadRef) (s : State) :
    (CreateTimerTask task d th s).1 = s.timer_id_
    ∧ (CreateTimerTask task d th s).2.timer_id_ = wrapInt (s.timer_id_ + 1)
    ∧ (CreateTimerTask task d th s).2.timer_list_
        = mapAssign s.timer_id_ s.next_timer s.timer_list_
    ∧ (CreateTimerTask task d th s).2.pending
        = s.pending ++ [⟨s.next_timer, s.timer_id_, d, task, th⟩]
    ∧ (CreateTimerTask task d th s).2.expires_at s.next_timer = s.clock + seconds d
    ∧ (CreateTimerTask task d th s).2.queues = s.queues
    ∧ (CreateTimerTask task d th s).2.next_timer = s.next_timer + 1 := by
  simp [CreateTimerTask, allocTimerId, armTimer, insertTimer, asyncWait, newDeadlineTimer]

/-- The re-arm branch of the completion handler. -/
theorem TimerCallBack_rearm (s : State) (err : Int) (timer : TimerRef) (timer_id d : Int)
    (task : Task) (th : ThreadRef) (hid : timer_id ≠ 0) :
    mapFind timer_id s.timer_list_ ≠ none →
      (TimerCallBack err timer timer_id d task th s).pending
          = s.pending ++ [⟨timer, timer_id, d, task, th⟩]
      ∧ (TimerCallBack err timer timer_id d task th s).expires_at timer
          = s.expires_at timer + seconds d
      ∧ ∀ r, r ≠ timer →
          (TimerCallBack err timer timer_id d task th s).expires_at r = s.expires_at r := by
  intro h
  have hc : ¬ (timer_id ≠ 0 ∧ mapFind timer_id s.timer_list_ = none) := fun hh => h hh.2
  unfold TimerCallBack
  rw [if_neg hc, if_pos hid]
  simp [PostTask, asyncWait, setExpiresAt]
  intro r hr hr2
  exact absurd hr2 hr

theorem CreateOnceTimerTask_facts (task : Task) (d : Int) (th : ThreadRef) (s : State) :
    (CreateOnceTimerTask task d th s).timer_id_ = s.timer_id_
    ∧ (CreateOnceTimerTask task d th s).timer_list_ = s.timer_list_
    ∧ (CreateOnceTimerTask task d th s).pending
        = s.pending ++ [⟨s.next_timer, 0, d, task, th⟩]
    ∧ (CreateOnceTimerTask task d th s).expires_at s.next_timer = s.clock + seconds d
    ∧ (CreateOnceTimerTask task d th s).queues = s.queues
    ∧ (CreateOnceTimerTask task d th s).next_timer = s.next_timer + 1 := by
  simp [CreateOnceTimerTask, asyncWait, newDeadlineTimer]

theorem run_cancels (ids : List Int) :
    ∀ s : State, (run (ids.map Op.cancel) s).pending = s.pending
      ∧ (run (ids.map Op.cancel) s).queues = s.queues
      ∧ (run (ids.map Op.cancel) s).timer_id_ = s.timer_id_ := by
  induction ids with
  | nil => intro s; exact ⟨rfl, rfl, rfl⟩
  | cons i ids ih =>
    intro s
    have h := ih (CancelTimerTask i s)
    exact h

/-- The completion handler of a fire-once wait: one post, no new wait. -/
theorem TimerCallBack_once (err : Int) (timer : TimerRef) (d : Int) (task : Task)
    (th : ThreadRef) (s : State) :
    TimerCallBack err timer 0 d task th s = PostTask task th s := by
  simp [TimerCallBack]

/-- The completion handler of a canceled periodic timer does nothing. -/
theorem TimerCallBack_absent (err : Int) (timer : TimerRef) (id d : Int) (task : Task)
    (th : ThreadRef) (s : State) (hid : id ≠ 0) (h : mapFind id s.timer_list_ = none) :
    TimerCallBack err timer id d task th s = s := by
  unfold TimerCallBack
  rw [if_pos ⟨hid, h⟩]

theorem run_handler_runs_after_cancel (id : Int) (hid : id ≠ 0) (p : List Wait) (w : Wait)
    (hw : w.timer_id = id) (later : List Op)
    (hl : ∀ op ∈ later, Op.isHandlerRun id p.length op = true) :
    ∀ t : State, mapFind id t.timer_list_ = none → (t.pending = p ++ [w] ∨ t.pending = p) →
      (run later t).queues = t.queues := by
  induction later with
  | nil => intro t _ _; rfl
  | cons op later ih =>
    intro t habs hp
    have hrest : ∀ o ∈ later, Op.isHandlerRun id p.length o = true :=
      fun o ho => hl o (List.mem_cons_of_mem _ ho)
    have hop := hl op (List.mem_cons_self _ _)
    rw [run_cons]
    cases op with
    | create task d th => simp [Op.isHandlerRun] at hop
    | createOnce task d th => simp [Op.isHandlerRun] at hop
    | cancel j => simp [Op.isHandlerRun] at hop
    | callBack err timer id2 d task th =>
      have hid2 : id2 = id := by simpa [Op.isHandlerRun] using hop
      subst hid2
      have hst : step t (Op.callBack err timer id2 d task th) = t :=
        TimerCallBack_absent err timer id2 d task th t hid habs
      rw [hst]
      exact ih hrest t habs hp
    | expire j err =>
      have hj : j = p.length := by simpa [Op.isHandlerRun] using hop
      subst hj
      rcases hp with hp | hp
      · have hst : step t (Op.expire p.length err) = { t with pending := p } := by
          show complete p.length err t = _
          rw [complete_last t p w err hp]
          exact TimerCallBack_absent _ _ _ _ _ _ _ (by rw [hw]; exact hid) (by rw [hw]; exact habs)
        rw [hst]
        exact ih hrest _ habs (Or.inr rfl)
      · have hst : step t (Op.expire p.length err) = t :=
          complete_out_of_range t p.length err (by rw [hp])
        rw [hst]
        exact ih hrest t habs (Or.inr hp)
    | tick now =>
      exact ih hrest { t with clock := now } habs hp

/-! The registry along a run. -/

theorem mem_mapErase {k : Int} {m : List (Int × TimerRef)} {e : Int × TimerRef} :
    e ∈ mapErase k m ↔ e ∈ m ∧ e.1 ≠ k := by
  simp [mapErase, List.mem_filter]

theorem nodup_keys_mapErase (k : Int) {m : List (Int × TimerRef)}
    (h : (m.map Prod.fst).Nodup) : ((mapErase k m).map Prod.fst).Nodup :=
  h.sublist ((List.filter_sublist m).map Prod.fst)

theorem step_timer_list_ (s : State) (op : Op) :
    (step s op).timer_list_
      = match op with
        | .create _ _ _ => mapAssign s.timer_id_ s.next_timer s.timer_list_
        | .cancel id => mapErase id s.timer_list_
        | _ => s.timer_list_ := by
  cases op with
  | create task d th => exact (CreateTimerTask_facts task d th s).2.2.1
  | createOnce task d th => exact (CreateOnceTimerTask_facts task d th s).2.1
  | cancel id => rfl
  | callBack err timer id d task th => exact TimerCallBack_timer_list_ err timer id d task th s
  | expire i err => exact complete_timer_list_ i err s
  | tick now => rfl

theorem step_timer_id_small (s : State) (op : Op) (h1 : 1 ≤ s.timer_id_)
    (hbd : op.isCreate = true → s.timer_id_ < 2147483647) :
    (step s op).timer_id_ = s.timer_id_ + (if op.isCreate then 1 else 0) := by
  rw [step_timer_id_]
  cases h : op.isCreate
  · simp
  · simp only [if_true]
    have := hbd h
    exact wrapInt_of_range (by omega) (by omega)

theorem createCount_cons (op : Op) (ops : List Op) :
    (createCount (op :: ops) : Int)
      = (createCount ops : Int) + (if op.isCreate then 1 else 0) := by
  cases h : op.isCreate <;> simp [createCount, List.countP_cons, h]

theorem step_RegistryOk (s : State) (op : Op) (h : RegistryOk s)
    (hbd : op.isCreate = true → s.timer_id_ < 2147483647) : RegistryOk (step s op) := by
  obtain ⟨h1, hb, hn⟩ := h
  have hid := step_timer_id_small s op h1 hbd
  have hl := step_timer_list_ s op
  cases op with
  | create task d th =>
    simp only [Op.isCreate, if_true] at hid
    simp only at hl
    refine ⟨by omega, ?_, ?_⟩
    · intro e he
      rw [hl, mapAssign, List.mem_cons] at he
      rw [hid]
      rcases he with he | he
      · subst he
        exact ⟨h1, by simp⟩
      · have := hb e (mem_mapErase.1 he).1
        omega
    · rw [hl, mapAssign, List.map_cons, List.nodup_cons]
      refine ⟨?_, nodup_keys_mapErase _ hn⟩
      intro hmem
      obtain ⟨e, he, hk⟩ := List.mem_map.1 hmem
      exact (mem_mapErase.1 he).2 hk
  | createOnce task d th =>
    simp only [Op.isCreate] at hid
    simp only at hl
    exact ⟨by simp at hid; omega, by rw [hl]; intro e he; have := hb e he; simp at hid; omega, by rw [hl]; exact hn⟩
  | cancel id =>
    simp only [Op.isCreate] at hid
    simp only at hl
    refine ⟨by simp at hid; omega, ?_, by rw [hl]; exact nodup_keys_mapErase _ hn⟩
    intro e he
    rw [hl] at he
    have := hb e (mem_mapErase.1 he).1
    simp at hid
    omega
  | callBack err timer id d task th =>
    simp only [Op.isCreate] at hid
    simp only at hl
    exact ⟨by simp at hid; omega, by rw [hl]; intro e he; have := hb e he; simp at hid; omega, by rw [hl]; exact hn⟩
  | expire i err =>
    simp only [Op.isCreate] at hid
    simp only at hl
    exact ⟨by simp at hid; omega, by rw [hl]; intro e he; have := hb e he; simp at hid; omega, by rw [hl]; exact hn⟩
  | tick now =>
    simp only [Op.isCreate] at hid
    simp only at hl
    exact ⟨by simp at hid; omega, by rw [hl]; intro e he; have := hb e he; simp at hid; omega, by rw [hl]; exact hn⟩

theorem run_RegistryOk (ops : List Op) :
    ∀ s : State, RegistryOk s → s.timer_id_ + (createCount ops : Int) < 2147483648 →
      RegistryOk (run ops s) := by
  induction ops with
  | nil => intro s h _; exact h
  | cons op ops ih =>
    intro s h hbd
    rw [createCount_cons] at hbd
    have hb : op.isCreate = true → s.timer_id_ < 2147483647 := by
      intro hc
      rw [hc] at hbd
      simp only [if_true] at hbd
      omega
    have hid := step_timer_id_small s op h.1 hb
    refine ih _ (step_RegistryOk s op h hb) ?_
    rw [hid]
    omega

theorem RegistryOk_new : RegistryOk Timer.new := by
  simp [RegistryOk, Timer.new]

theorem snoc_eq_append_cons {l pre post : List Op} {a c : Op} :
    l ++ [a] = pre ++ c :: post ↔
      (post = [] ∧ pre = l ∧ c = a) ∨ (∃ q, post = q ++ [a] ∧ l = pre ++ c :: q) := by
  rcases List.eq_nil_or_concat post with hp | ⟨q, b, hp⟩
  · subst hp
    constructor
    · intro h
      have := List.append_inj' h rfl
      exact Or.inl ⟨rfl, this.1.symm, by simpa using this.2.symm⟩
    · rintro (⟨_, h2, h3⟩ | ⟨q, h1, _⟩)
      · rw [h2, h3]
      · simp at h1
  · rw [List.concat_eq_append] at hp
    subst hp
    constructor
    · intro h
      have h2 : l ++ [a] = (pre ++ c :: q) ++ [b] := by simpa using h
      have := List.append_inj' h2 rfl
      have hab : a = b := by simpa using this.2
      exact Or.inr ⟨q, by rw [hab], this.1⟩
    · rintro (⟨h1, _, _⟩ | ⟨q2, h1, h2⟩)
      · simp at h1
      · have := List.append_inj' h1 rfl
        have hab : b = a := by simpa using this.2
        rw [h2, hab, this.1]
        simp

theorem issued_snoc (l : List Op) (a : Op) (k : Int) (h : TimerRef) :
    issued (l ++ [a]) k h ↔
      (∃ task d th, a = Op.create task d th
          ∧ (run l Timer.new).timer_id_ = k ∧ (run l Timer.new).next_timer = h)
      ∨ (issued l k h ∧ a ≠ Op.cancel k) := by
  constructor
  · rintro ⟨pre, task, d, th, post, hdec, hk, hh, hc⟩
    rcases snoc_eq_append_cons.1 hdec with ⟨h1, h2, h3⟩ | ⟨q, h1, h2⟩
    · subst h2
      exact Or.inl ⟨task, d, th, h3.symm, hk, hh⟩
    · subst h1
      refine Or.inr ⟨⟨pre, task, d, th, q, h2, hk, hh, ?_⟩, ?_⟩
      · intro hm; exact hc (List.mem_append_left _ hm)
      · intro ha; exact hc (by simp [ha])
  · rintro (⟨task, d, th, ha, hk, hh⟩ | ⟨⟨pre, task, d, th, post, hdec, hk, hh, hc⟩, ha⟩)
    · exact ⟨l, task, d, th, [], by rw [ha], hk, hh, by simp⟩
    · refine ⟨pre, task, d, th, post ++ [a], by rw [hdec]; simp, hk, hh, ?_⟩
      intro hm
      rcases List.mem_append.1 hm with hm | hm
      · exact hc hm
      · have hm2 : Op.cancel k = a := by simpa using hm
        exact ha hm2.symm

theorem issued_lt (l : List Op) (hbd : createCount l < 2147483647) (k : Int) (h : TimerRef)
    (hi : issued l k h) : k < (run l Timer.new).timer_id_ := by
  obtain ⟨pre, task, d, th, post, hdec, hk, _, _⟩ := hi
  have hk2 : (run pre Timer.new).timer_id_ = k := hk
  have hcount : createCount l = createCount pre + (createCount post + 1) := by
    rw [hdec, createCount_append]
    simp [createCount, List.countP_cons, Op.isCreate]
  rw [run_new_timer_id_small l hbd, ← hk2, run_new_timer_id_small pre (by omega), hcount]
  push_cast
  omega

theorem mapFind_run_iff_issued (ops : List Op) (hbd : createCount ops < 2147483647) (k : Int)
    (h : TimerRef) :
    mapFind k (run ops Timer.new).timer_list_ = some h ↔ issued ops k h := by
  induction ops using List.reverseRecOn generalizing k h with
  | nil =>
    constructor
    · intro hf; simp [run, Timer.new, mapFind] at hf
    · rintro ⟨pre, task, d, th, post, hdec, _⟩
      simp at hdec
  | append_singleton l a ih =>
    have hbl : createCount l < 2147483647 := by
      rw [createCount_append] at hbd
      omega
    replace ih := ih hbl
    rw [issued_snoc, run_append]
    show mapFind k (step (run l Timer.new) a).timer_list_ = some h ↔ _
    rw [step_timer_list_]
    cases a with
    | create task d th =>
      simp only
      by_cases hk : k = (run l Timer.new).timer_id_
      · subst hk
        rw [mapFind_mapAssign_self]
        constructor
        · intro hh
          exact Or.inl ⟨task, d, th, rfl, rfl, by simpa using hh⟩
        · rintro (⟨_, _, _, _, _, hh⟩ | ⟨hi, _⟩)
          · rw [hh]
          · exact absurd (issued_lt l hbl _ h hi) (lt_irrefl _)
      · rw [mapFind_mapAssign_ne hk, ih]
        constructor
        · intro hi; exact Or.inr ⟨hi, by simp⟩
        · rintro (⟨_, _, _, _, hk2, _⟩ | ⟨hi, _⟩)
          · exact absurd hk2.symm hk
          · exact hi
    | cancel j =>
      simp only
      by_cases hk : k = j
      · subst hk
        rw [mapFind_mapErase_self]
        constructor
        · intro hf; simp at hf
        · rintro (⟨_, _, _, ha, _⟩ | ⟨_, ha⟩)
          · simp at ha
          · exact absurd rfl ha
      · rw [mapFind_mapErase_ne hk, ih]
        constructor
        · intro hi
          exact Or.inr ⟨hi, by intro ha; injection ha with ha; exact hk ha.symm⟩
        · rintro (⟨_, _, _, ha, _⟩ | ⟨hi, _⟩)
          · simp at ha
          · exact hi
    | createOnce task d th =>
      simp only
      rw [ih]
      constructor
      · intro hi; exact Or.inr ⟨hi, by simp⟩
      · rintro (⟨_, _, _, ha, _⟩ | ⟨hi, _⟩)
        · simp at ha
        · exact hi
    | callBack err timer id d task th =>
      simp only
      rw [ih]
      constructor
      · intro hi; exact Or.inr ⟨hi, by simp⟩
      · rintro (⟨_, _, _, ha, _⟩ | ⟨hi, _⟩)
        · simp at ha
        · exact hi
    | expire i err =>
      simp only
      rw [ih]
      constructor
      · intro hi; exact Or.inr ⟨hi, by simp⟩
      · rintro (⟨_, _, _, ha, _⟩ | ⟨hi, _⟩)
        · simp at ha
        · exact hi
    | tick now =>
      simp only
      rw [ih]
      constructor
      · intro hi; exact Or.inr ⟨hi, by simp⟩
      · rintro (⟨_, _, _, ha, _⟩ | ⟨hi, _⟩)
        · simp at ha
        · exact hi

theorem mem_iff_mapFind_of_nodup (k : Int) (h : TimerRef) (m : List (Int × TimerRef))
    (hn : (m.map Prod.fst).Nodup) : (k, h) ∈ m ↔ mapFind k m = some h := by
  induction m with
  | nil => simp [mapFind]
  | cons e m ih =>
    obtain ⟨a, b⟩ := e
    rw [List.map_cons, List.nodup_cons] at hn
    by_cases hk : a = k
    · subst hk
      have hnot : (a, h) ∉ m := fun hm => hn.1 (List.mem_map.2 ⟨(a, h), hm, rfl⟩)
      simp [mapFind, hnot]
      exact eq_comm
    · have hne : ¬ k = a := fun e => hk e.symm
      simp [mapFind, hk, hne, ih hn.2]

theorem mem_keys_iff_mapFind (k : Int) (m : List (Int × TimerRef)) :
    k ∈ m.map Prod.fst ↔ ∃ h, mapFind k m = some h := by
  rw [← Option.ne_none_iff_exists', Ne, mapFind_eq_none_iff]
  simp

/-! The pending waits along a run. -/

theorem TimerCallBack_pending (err : Int) (timer : TimerRef) (id d : Int) (task : Task)
    (th : ThreadRef) (s : State) :
    (TimerCallBack err timer id d task th s).pending = s.pending
    ∨ (id ≠ 0 ∧ mapFind id s.timer_list_ ≠ none
        ∧ (TimerCallBack err timer id d task th s).pending
            = s.pending ++ [⟨timer, id, d, task, th⟩]) := by
  by_cases h0 : id = 0
  · left
    subst h0
    rw [TimerCallBack_once]
    rfl
  · by_cases hn : mapFind id s.timer_list_ = none
    · left
      rw [TimerCallBack_absent err timer id d task th s h0 hn]
    · right
      exact ⟨h0, hn, (TimerCallBack_rearm s err timer id d task th h0 hn).1⟩

theorem complete_pending (i : Nat) (err : Int) (s : State) :
    ∀ w ∈ (complete i err s).pending, w ∈ s.pending := by
  intro w hw
  unfold complete at hw
  split at hw
  · exact hw
  · rename_i v hv
    rcases TimerCallBack_pending err v.timer v.timer_id v.delay_seconds v.task v.task_thread
        { s with pending := s.pending.eraseIdx i } with h | ⟨_, _, h⟩
    · rw [h] at hw
      exact List.mem_of_mem_eraseIdx hw
    · rw [h, List.mem_append] at hw
      rcases hw with hw | hw
      · exact List.mem_of_mem_eraseIdx hw
      · have hwv : w = v := by simpa using hw
        rw [hwv]
        exact List.get?_mem hv

theorem exists_key_of_mapFind_ne_none {k : Int} {m : List (Int × TimerRef)}
    (h : mapFind k m ≠ none) : ∃ e ∈ m, e.1 = k := by
  by_contra hno
  exact h ((mapFind_eq_none_iff k m).2 (fun e he hk => hno ⟨e, he, hk⟩))

theorem step_PendingOk (s : State) (op : Op) (hr : RegistryOk s) (hp : PendingOk s)
    (hbd : op.isCreate = true → s.timer_id_ < 2147483647) :
    PendingOk (step s op) := by
  intro w hw
  have hid := step_timer_id_small s op hr.1 hbd
  cases op with
  | create task d th =>
    rw [hid]
    have hpend := (CreateTimerTask_facts task d th s).2.2.2.1
    have hw2 : w ∈ s.pending ++ [⟨s.next_timer, s.timer_id_, d, task, th⟩] := by
      rw [← hpend]; exact hw
    rcases List.mem_append.1 hw2 with h | h
    · have := hp w h
      simp [Op.isCreate]
      omega
    · have hwv : w = ⟨s.next_timer, s.timer_id_, d, task, th⟩ := by simpa using h
      rw [hwv]
      simp [Op.isCreate]
  | createOnce task d th =>
    rw [hid]
    have hpend := (CreateOnceTimerTask_facts task d th s).2.2.1
    have hw2 : w ∈ s.pending ++ [⟨s.next_timer, 0, d, task, th⟩] := by
      rw [← hpend]; exact hw
    rcases List.mem_append.1 hw2 with h | h
    · have := hp w h
      simp [Op.isCreate]
      exact this
    · have hwv : w = ⟨s.next_timer, 0, d, task, th⟩ := by simpa using h
      rw [hwv]
      simp [Op.isCreate]
      have := hr.1
      omega
  | cancel id =>
    rw [hid]
    simp [Op.isCreate]
    exact hp w hw
  | callBack err timer id d task th =>
    rw [hid]
    simp only [Op.isCreate]
    have hw2 : w ∈ (TimerCallBack err timer id d task th s).pending := hw
    rcases TimerCallBack_pending err timer id d task th s with h | ⟨_, hlive, h⟩
    · rw [h] at hw2
      have := hp w hw2
      simpa using this
    · rw [h, List.mem_append] at hw2
      rcases hw2 with h2 | h2
      · have := hp w h2
        simpa using this
      · have hwv : w = ⟨timer, id, d, task, th⟩ := by simpa using h2
        rw [hwv]
        obtain ⟨e, he, hk⟩ := exists_key_of_mapFind_ne_none hlive
        have := (hr.2.1 e he).2
        simp
        omega
  | expire i err =>
    rw [hid]
    simp only [Op.isCreate]
    have := hp w (complete_pending i err s w hw)
    simpa using this
  | tick now =>
    rw [hid]
    simp only [Op.isCreate]
    have := hp w hw
    simpa using this

theorem run_PendingOk (ops : List Op) :
    ∀ s : State, RegistryOk s → PendingOk s →
      s.timer_id_ + (createCount ops : Int) < 2147483648 → PendingOk (run ops s) := by
  induction ops with
  | nil => intro s _ h _; exact h
  | cons op ops ih =>
    intro s hr hp hbd
    rw [createCount_cons] at hbd
    have hb : op.isCreate = true → s.timer_id_ < 2147483647 := by
      intro hc
      rw [hc] at hbd
      simp only [if_true] at hbd
      omega
    have hid := step_timer_id_small s op hr.1 hb
    refine ih _ (step_RegistryOk s op hr hb) (step_PendingOk s op hr hp hb) ?_
    rw [hid]
    omega

theorem ReachableInRange.registryOk {s : State} (h : ReachableInRange s) : RegistryOk s := by
  obtain ⟨ops, hb, rfl⟩ := h
  refine run_RegistryOk ops Timer.new RegistryOk_new ?_
  simp only [Timer.new]
  omega

theorem ReachableInRange.pendingOk {s : State} (h : ReachableInRange s) : PendingOk s := by
  obtain ⟨ops, hb, rfl⟩ := h
  refine run_PendingOk ops Timer.new RegistryOk_new (by intro w hw; simp [Timer.new] at hw) ?_
  simp only [Timer.new]
  omega

theorem ReachableInRange.timer_id_lt {s : State} (h : ReachableInRange s) :
    s.timer_id_ < 2147483648 := by
  obtain ⟨ops, hb, rfl⟩ := h
  rw [run_new_timer_id_small ops hb]
  omega

/-- Distance of the counter from `id`: the number of `CreateTimerTask` calls that
can still be made before `id` is handed out.  One step of a run that stays
within that distance. -/
theorem step_distance (id : Int) (x : State)
    (op : Op) (rest : List Op) (h1 : -2147483648 ≤ x.timer_id_) (h2 : x.timer_id_ < 2147483648)
    (hm : (createCount (op :: rest) : Int) ≤ (id - x.timer_id_) % 4294967296) :
    -2147483648 ≤ (step x op).timer_id_ ∧ (step x op).timer_id_ < 2147483648
    ∧ (createCount rest : Int) ≤ (id - (step x op).timer_id_) % 4294967296
    ∧ (op.isCreate = true → x.timer_id_ ≠ id) := by
  rw [createCount_cons] at hm
  rw [step_timer_id_]
  cases h : op.isCreate
  · rw [h] at hm
    simp only [Bool.false_eq_true, if_false] at hm ⊢
    refine ⟨h1, h2, by omega, by simp⟩
  · rw [h] at hm
    simp only [if_true] at hm ⊢
    unfold wrapInt
    refine ⟨by omega, by omega, by omega, ?_⟩
    intro _ he
    rw [he] at hm
    simp at hm
    omega

/-- A timer id that no pending wait is bound to stays so until the counter comes
round to it again, as long as handlers run only when the reactor completes a
pending wait. -/
theorem run_no_wait_for (id : Int) (hid : id ≠ 0) (later : List Op)
    (hl : ∀ op ∈ later, Op.isCallBack op = false) :
    ∀ x : State, -2147483648 ≤ x.timer_id_ → x.timer_id_ < 2147483648 →
      (createCount later : Int) ≤ (id - x.timer_id_) % 4294967296 →
      (∀ w ∈ x.pending, w.timer_id ≠ id) →
      ∀ w ∈ (run later x).pending, w.timer_id ≠ id := by
  induction later with
  | nil => intro x _ _ _ h; exact h
  | cons op later ih =>
    intro x h1 h2 hm hno
    have hrest : ∀ o ∈ later, Op.isCallBack o = false :=
      fun o ho => hl o (List.mem_cons_of_mem _ ho)
    have hop := hl op (List.mem_cons_self _ _)
    rw [run_cons]
    obtain ⟨d1, d2, d3, d4⟩ := step_distance id x op later h1 h2 hm
    apply ih hrest _ d1 d2 d3
    intro w hw
    cases op with
    | create task d th =>
      have hpend := (CreateTimerTask_facts task d th x).2.2.2.1
      have hw2 : w ∈ x.pending ++ [⟨x.next_timer, x.timer_id_, d, task, th⟩] := by
        rw [← hpend]; exact hw
      rcases List.mem_append.1 hw2 with h | h
      · exact hno w h
      · have hwv : w = ⟨x.next_timer, x.timer_id_, d, task, th⟩ := by simpa using h
        rw [hwv]
        exact d4 rfl
    | createOnce task d th =>
      have hpend := (CreateOnceTimerTask_facts task d th x).2.2.1
      have hw2 : w ∈ x.pending ++ [⟨x.next_timer, 0, d, task, th⟩] := by
        rw [← hpend]; exact hw
      rcases List.mem_append.1 hw2 with h | h
      · exact hno w h
      · have hwv : w = ⟨x.next_timer, 0, d, task, th⟩ := by simpa using h
        rw [hwv]
        exact fun h0 => hid h0.symm
    | cancel j => exact hno w hw
    | callBack err timer j d task th => simp [Op.isCallBack] at hop
    | expire i err => exact hno w (complete_pending i err x w hw)
    | tick now => exact hno w hw

/-- A registry entry stays as it is until its id is canceled or handed out
again. -/
theorem run_keeps_entry (id : Int)
    (h : TimerRef) (later : List Op) (hl : Op.cancel id ∉ later) :
    ∀ x : State, -2147483648 ≤ x.timer_id_ → x.timer_id_ < 2147483648 →
      (createCount later : Int) ≤ (id - x.timer_id_) % 4294967296 →
      mapFind id x.timer_list_ = some h →
      mapFind id (run later x).timer_list_ = some h := by
  induction later with
  | nil => intro x _ _ _ hx; exact hx
  | cons op later ih =>
    intro x h1 h2 hm hx
    have hrest : Op.cancel id ∉ later := fun hm => hl (List.mem_cons_of_mem _ hm)
    have hop : op ≠ Op.cancel id := fun he => hl (by rw [he]; exact List.mem_cons_self _ _)
    rw [run_cons]
    obtain ⟨d1, d2, d3, d4⟩ := step_distance id x op later h1 h2 hm
    apply ih hrest _ d1 d2 d3
    rw [step_timer_list_]
    cases op with
    | create task d th =>
      simp only
      rw [mapFind_mapAssign_ne (fun e => d4 rfl e.symm)]
      exact hx
    | cancel j =>
      simp only
      have hj : id ≠ j := fun e => hop (by rw [e])
      rw [mapFind_mapErase_ne hj]
      exact hx
    | createOnce task d th => exact hx
    | callBack err timer j d task th => exact hx
    | expire i err => exact hx
    | tick now => exact hx

/-! The counter after it has gone around the range of `int`. -/

theorem wrappedState_timer_id_ : wrappedState.timer_id_ = 0 := by
  unfold wrappedState
  rw [run_new_timer_id_, createCount_replicate_create]
  decide

/-- A periodic timer that was handed the sentinel id: its wait still posts after
the id was canceled. -/
theorem sentinel_timer_survives_cancel (s : State) (h0 : s.timer_id_ = 0) (task : Task)
    (d : Int) (th : ThreadRef) (err : Int) :
    (run [Op.expire s.pending.length err]
        (CancelTimerTask (CreateTimerTask task d th s).1
          (run (firings s.pending.length []) (CreateTimerTask task d th s).2))).queues th
      = s.queues th ++ [task] := by
  obtain ⟨_, _, _, c4, _, c6, _⟩ := CreateTimerTask_facts task d th s
  rw [h0] at c4
  have hp : (CancelTimerTask (CreateTimerTask task d th s).1
      (run (firings s.pending.length []) (CreateTimerTask task d th s).2)).pending
      = s.pending ++ [⟨s.next_timer, 0, d, task, th⟩] := c4
  show (complete s.pending.length err _).queues th = _
  rw [complete_last _ s.pending ⟨s.next_timer, 0, d, task, th⟩ err hp, TimerCallBack_once]
  show (if th = th then (CreateTimerTask task d th s).2.queues th ++ [task] else _) = _
  rw [if_pos rfl, c6]

/-- The registry entry written by a `CreateTimerTask` call at the end of a run. -/
theorem snoc_create_key (ops : List Op) (task : Task) (d : Int) (th : ThreadRef) :
    mapFind (run ops Timer.new).timer_id_
        (run (ops ++ [Op.create task d th]) Timer.new).timer_list_
      = some (run ops Timer.new).next_timer := by
  rw [run_append]
  show mapFind _ (CreateTimerTask task d th (run ops Timer.new)).2.timer_list_ = _
  rw [(CreateTimerTask_facts task d th _).2.2.1, mapFind_mapAssign_self]

/-! The claims. -/

/-- C1, as stated, fails once the `int` counter has run through its range.  On
a fresh Timer the 2147483648-th call of CreateTimerTask returns -2147483648,
not 2147483648; the 4294967296-th call returns the sentinel 0; and the call
after that returns 1, the id the first call returned. -/
theorem C1_ids_wrap_around :
    (CreateTimerTask 7 1 3
        (run (List.replicate 2147483647 (Op.create 7 1 3)) Timer.new)).1 = -2147483648
    ∧ (CreateTimerTask 7 1 3
        (run (List.replicate 4294967295 (Op.create 7 1 3)) Timer.new)).1 = 0
    ∧ (CreateTimerTask 7 1 3
        (run (List.replicate 4294967296 (Op.create 7 1 3)) Timer.new)).1
      = (CreateTimerTask 7 1 3 (run [] Timer.new)).1 := by
  have key : ∀ n : Nat, (CreateTimerTask 7 1 3
      (run (List.replicate n (Op.create 7 1 3)) Timer.new)).1 = wrapInt (1 + (n : Int)) := by
    intro n
    rw [(CreateTimerTask_facts 7 1 3 _).1, run_new_timer_id_, createCount_replicate_create]
  refine ⟨?_, ?_, ?_⟩
  · rw [key]; decide
  · rw [key]; decide
  · rw [key]; decide

/-- C1, amended: on a freshly constructed Timer, after any finite sequence `pre`
of CreateTimerTask, CreateOnceTimerTask, CancelTimerTask and TimerCallBack
steps with fewer than 2147483647 calls of CreateTimerTask, the next call of
CreateTimerTask (the k-th one, where k - 1 calls occur in `pre` and
k <= 2147483647) returns k.  Hence the returned id is at least 1, is never
the sentinel 0, and is strictly smaller than the id returned by any later
call within that range, whatever steps (cancellations included) lie in
between: ids are pairwise distinct, increasing in call order, and not
reused. -/
theorem C1_create_returns_call_number (pre : List Op) (task : Task) (d : Int) (th : ThreadRef)
    (hb : createCount pre < 2147483647) :
    (CreateTimerTask task d th (run pre Timer.new)).1 = (createCount pre : Int) + 1
    ∧ 1 ≤ (CreateTimerTask task d th (run pre Timer.new)).1
    ∧ (CreateTimerTask task d th (run pre Timer.new)).1 ≠ 0
    ∧ ∀ (mid : List Op) (task2 : Task) (d2 : Int) (th2 : ThreadRef),
        createCount (pre ++ Op.create task d th :: mid) < 2147483647 →
        (CreateTimerTask task d th (run pre Timer.new)).1
          < (CreateTimerTask task2 d2 th2
              (run (pre ++ Op.create task d th :: mid) Timer.new)).1 := by
  have key : ∀ (ops : List Op) (t : Task) (e : Int) (c : ThreadRef),
      createCount ops < 2147483647 →
      (CreateTimerTask t e c (run ops Timer.new)).1 = (createCount ops : Int) + 1 := by
    intro ops t e c h
    rw [(CreateTimerTask_facts t e c _).1, run_new_timer_id_small ops h]
    ring
  refine ⟨key _ _ _ _ hb, ?_, ?_, ?_⟩
  · rw [key _ _ _ _ hb]; omega
  · rw [key _ _ _ _ hb]; omega
  · intro mid task2 d2 th2 hb2
    rw [key _ _ _ _ hb, key _ _ _ _ hb2, createCount_append]
    simp [createCount, List.countP_cons, Op.isCreate]

theorem C1_create_returns_call_number_witness :
    createCount [Op.create 7 2 3, Op.cancel 1, Op.createOnce 5 0 3] < 2147483647
    ∧ (CreateTimerTask 9 1 4
        (run [Op.create 7 2 3, Op.cancel 1, Op.createOnce 5 0 3] Timer.new)).1
      = (createCount [Op.create 7 2 3, Op.cancel 1, Op.createOnce 5 0 3] : Int) + 1 :=
  ⟨by decide,
   (C1_create_returns_call_number [Op.create 7 2 3, Op.cancel 1, Op.createOnce 5 0 3] 9 1 4
      (by decide)).1⟩

/-- C2: for every state and every timer_id present in the registry,
CancelTimerTask(timer_id) yields a state in which timer_id is absent, every
other key has the same lookup result and every other entry is kept (and none
is added), and the id counter is unchanged. -/
theorem C2_cancel_present (s : State) (timer_id : Int)
    (h : mapFind timer_id s.timer_list_ ≠ none) :
    mapFind timer_id (CancelTimerTask timer_id s).timer_list_ = none
    ∧ (∀ k, k ≠ timer_id →
        mapFind k (CancelTimerTask timer_id s).timer_list_ = mapFind k s.timer_list_)
    ∧ (∀ e : Int × TimerRef,
        e ∈ (CancelTimerTask timer_id s).timer_list_ ↔ e ∈ s.timer_list_ ∧ e.1 ≠ timer_id)
    ∧ (CancelTimerTask timer_id s).timer_list_.length < s.timer_list_.length
    ∧ (CancelTimerTask timer_id s).timer_id_ = s.timer_id_ := by
  refine ⟨mapFind_mapErase_self _ _, fun k hk => mapFind_mapErase_ne hk _, ?_, ?_, rfl⟩
  · intro e
    simp [CancelTimerTask, mapErase, List.mem_filter]
  · have hex : ∃ e ∈ s.timer_list_, e.1 = timer_id := by
      by_contra hno
      exact h ((mapFind_eq_none_iff _ _).2 (fun e he hk => hno ⟨e, he, hk⟩))
    obtain ⟨e, he, hk⟩ := hex
    show (mapErase timer_id s.timer_list_).length < _
    unfold mapErase
    rw [List.length_filter_lt_length_iff_exists]
    exact ⟨e, he, by simp [hk]⟩

theorem C2_cancel_present_witness :
    mapFind 1 sampleState.timer_list_ ≠ none
    ∧ (mapFind 1 (CancelTimerTask 1 sampleState).timer_list_ = none
      ∧ (∀ k, k ≠ 1 →
          mapFind k (CancelTimerTask 1 sampleState).timer_list_
            = mapFind k sampleState.timer_list_)
      ∧ (∀ e : Int × TimerRef,
          e ∈ (CancelTimerTask 1 sampleState).timer_list_
            ↔ e ∈ sampleState.timer_list_ ∧ e.1 ≠ 1)
      ∧ (CancelTimerTask 1 sampleState).timer_list_.length < sampleState.timer_list_.length
      ∧ (CancelTimerTask 1 sampleState).timer_id_ = sampleState.timer_id_) :=
  ⟨by decide, C2_cancel_present sampleState 1 (by decide)⟩

/-- C3: for every state and every timer_id absent from the registry,
CancelTimerTask(timer_id) leaves the whole state (registry, id counter and
everything else) exactly unchanged; and for every id, present or not,
cancelling twice gives the same state as cancelling once. -/
theorem C3_cancel_absent_noop (s : State) (timer_id : Int) :
    (mapFind timer_id s.timer_list_ = none → CancelTimerTask timer_id s = s)
    ∧ CancelTimerTask timer_id (CancelTimerTask timer_id s) = CancelTimerTask timer_id s := by
  constructor
  · intro h
    simp [CancelTimerTask, mapErase_of_absent h]
  · simp [CancelTimerTask, mapErase_mapErase]

theorem C3_cancel_absent_noop_witness :
    mapFind 0 sampleState.timer_list_ = none
    ∧ CancelTimerTask 0 sampleState = sampleState
    ∧ mapFind (-4) sampleState.timer_list_ = none
    ∧ CancelTimerTask (-4) sampleState = sampleState :=
  ⟨by decide, (C3_cancel_absent_noop sampleState 0).1 (by decide),
   by decide, (C3_cancel_absent_noop sampleState (-4)).1 (by decide)⟩

/-- C4: for every state, error code and arguments of a completion-handler
call: if timer_id is 0 or present in the registry, the handler appends exactly
the given task to the end of the queue of the given context and leaves every
other queue unchanged; if timer_id is nonzero and absent, it returns the state
untouched; so it posts if and only if timer_id = 0 or timer_id is present. -/
theorem C4_callback_posts_iff (s : State) (err : Int) (timer : TimerRef) (timer_id d : Int)
    (task : Task) (th : ThreadRef) :
    ((timer_id = 0 ∨ mapFind timer_id s.timer_list_ ≠ none) →
        (TimerCallBack err timer timer_id d task th s).queues th = s.queues th ++ [task]
        ∧ ∀ c, c ≠ th → (TimerCallBack err timer timer_id d task th s).queues c = s.queues c)
    ∧ ((timer_id ≠ 0 ∧ mapFind timer_id s.timer_list_ = none) →
        TimerCallBack err timer timer_id d task th s = s)
    ∧ ((TimerCallBack err timer timer_id d task th s).queues ≠ s.queues
        ↔ (timer_id = 0 ∨ mapFind timer_id s.timer_list_ ≠ none)) := by
  have hpost : (timer_id = 0 ∨ mapFind timer_id s.timer_list_ ≠ none) →
      (TimerCallBack err timer timer_id d task th s).queues th = s.queues th ++ [task]
      ∧ ∀ c, c ≠ th → (TimerCallBack err timer timer_id d task th s).queues c = s.queues c := by
    intro h
    have hc : ¬ (timer_id ≠ 0 ∧ mapFind timer_id s.timer_list_ = none) := by
      rintro ⟨h0, hn⟩
      rcases h with h | h
      · exact h0 h
      · exact h hn
    unfold TimerCallBack
    rw [if_neg hc]
    by_cases h0 : timer_id = 0
    · simp [h0, PostTask]
    · simp [h0, PostTask, asyncWait, setExpiresAt]
  have hskip : (timer_id ≠ 0 ∧ mapFind timer_id s.timer_list_ = none) →
      TimerCallBack err timer timer_id d task th s = s := by
    intro h
    unfold TimerCallBack
    rw [if_pos h]
  refine ⟨hpost, hskip, ?_⟩
  constructor
  · intro hne
    by_contra hc
    apply hne
    rw [hskip]
    constructor
    · intro h0; exact hc (Or.inl h0)
    · by_contra hn; exact hc (Or.inr hn)
  · intro h hq
    have h1 := (hpost h).1
    rw [hq] at h1
    have h2 := congrArg List.length h1
    simp at h2

theorem C4_callback_posts_iff_witness :
    (mapFind 1 sampleState.timer_list_ ≠ none
      ∧ (TimerCallBack 0 0 1 2 7 3 sampleState).queues 3 = sampleState.queues 3 ++ [7])
    ∧ ((5 : Int) ≠ 0 ∧ mapFind 5 sampleState.timer_list_ = none
      ∧ TimerCallBack 0 0 5 2 7 3 sampleState = sampleState) :=
  ⟨⟨by decide, ((C4_callback_posts_iff sampleState 0 0 1 2 7 3).1 (Or.inr (by decide))).1⟩,
   ⟨by decide, by decide,
    (C4_callback_posts_iff sampleState 0 0 5 2 7 3).2.1 ⟨by decide, by decide⟩⟩⟩

/-- C5: for every state and every run of the completion handler with a
nonzero timer_id: if timer_id is present in the registry, the handler sets the
expiry of the timer to its previous expiry plus the period and registers one
new wait for the same timer, timer_id, delay, task and context; if timer_id is
absent, no wait is registered and no expiry changes; so a wait is registered
if and only if timer_id is present when the handler runs. -/
theorem C5_callback_rearms_iff (s : State) (err : Int) (timer : TimerRef) (timer_id d : Int)
    (task : Task) (th : ThreadRef) (hid : timer_id ≠ 0) :
    (mapFind timer_id s.timer_list_ ≠ none →
        (TimerCallBack err timer timer_id d task th s).pending
            = s.pending ++ [⟨timer, timer_id, d, task, th⟩]
        ∧ (TimerCallBack err timer timer_id d task th s).expires_at timer
            = s.expires_at timer + seconds d
        ∧ ∀ r, r ≠ timer →
            (TimerCallBack err timer timer_id d task th s).expires_at r = s.expires_at r)
    ∧ (mapFind timer_id s.timer_list_ = none →
        (TimerCallBack err timer timer_id d task th s).pending = s.pending
        ∧ (TimerCallBack err timer timer_id d task th s).expires_at = s.expires_at)
    ∧ ((TimerCallBack err timer timer_id d task th s).pending ≠ s.pending
        ↔ mapFind timer_id s.timer_list_ ≠ none) := by
  have hre := TimerCallBack_rearm s err timer timer_id d task th hid
  have hskip : mapFind timer_id s.timer_list_ = none →
      TimerCallBack err timer timer_id d task th s = s := by
    intro h
    unfold TimerCallBack
    rw [if_pos ⟨hid, h⟩]
  refine ⟨hre, fun h => by rw [hskip h]; exact ⟨rfl, rfl⟩, ?_⟩
  constructor
  · intro hne hn
    exact hne (by rw [hskip hn])
  · intro h hp
    have h1 := (hre h).1
    rw [hp] at h1
    have h2 := congrArg List.length h1
    simp at h2

theorem C5_callback_rearms_iff_witness :
    (1 : Int) ≠ 0
    ∧ (mapFind 1 sampleState.timer_list_ ≠ none
      ∧ (TimerCallBack 0 0 1 2 7 3 sampleState).pending
          = sampleState.pending ++ [⟨0, 1, 2, 7, 3⟩])
    ∧ (mapFind 1 (CancelTimerTask 1 sampleState).timer_list_ = none
      ∧ (TimerCallBack 0 0 1 2 7 3 (CancelTimerTask 1 sampleState)).pending
          = (CancelTimerTask 1 sampleState).pending) :=
  ⟨by decide,
   ⟨by decide, ((C5_callback_rearms_iff sampleState 0 0 1 2 7 3 (by decide)).1 (by decide)).1⟩,
   ⟨by decide,
    ((C5_callback_rearms_iff (CancelTimerTask 1 sampleState) 0 0 1 2 7 3
        (by decide)).2.1 (by decide)).1⟩⟩

/-- C7: for every state, callback, delay (0 and negatives included) and
context, CreateOnceTimerTask leaves the registry and the id counter unchanged,
posts nothing itself, and arms exactly one new pending wait, bound to the
sentinel id 0.  After any intervening CancelTimerTask calls (CancelTimerTask(0)
included) that wait is still pending; when the reactor completes it, the
callback is appended once to the queue of the given context, no other queue
changes, the registry is not touched, the wait is gone and no further wait is
registered, so completing that position again does nothing.  In any state
whatsoever the handler bound to id 0 posts once and registers no wait. -/
theorem C7_once_fires_exactly_once (s : State) (task : Task) (d : Int) (th : ThreadRef)
    (ids : List Int) (err : Int) :
    (CreateOnceTimerTask task d th s).timer_list_ = s.timer_list_
    ∧ (CreateOnceTimerTask task d th s).timer_id_ = s.timer_id_
    ∧ (CreateOnceTimerTask task d th s).queues = s.queues
    ∧ (CreateOnceTimerTask task d th s).pending = s.pending ++ [⟨s.next_timer, 0, d, task, th⟩]
    ∧ (run (ids.map Op.cancel) (CreateOnceTimerTask task d th s)).pending
        = s.pending ++ [⟨s.next_timer, 0, d, task, th⟩]
    ∧ (complete s.pending.length err
          (run (ids.map Op.cancel) (CreateOnceTimerTask task d th s))).queues th
        = s.queues th ++ [task]
    ∧ (∀ c, c ≠ th →
        (complete s.pending.length err
          (run (ids.map Op.cancel) (CreateOnceTimerTask task d th s))).queues c = s.queues c)
    ∧ (complete s.pending.length err
          (run (ids.map Op.cancel) (CreateOnceTimerTask task d th s))).pending = s.pending
    ∧ (complete s.pending.length err
          (run (ids.map Op.cancel) (CreateOnceTimerTask task d th s))).timer_list_
        = (run (ids.map Op.cancel) (CreateOnceTimerTask task d th s)).timer_list_
    ∧ (∀ err2 : Int,
        complete s.pending.length err2
          (complete s.pending.length err
            (run (ids.map Op.cancel) (CreateOnceTimerTask task d th s)))
        = complete s.pending.length err
            (run (ids.map Op.cancel) (CreateOnceTimerTask task d th s)))
    ∧ (∀ (s0 : State) (e : Int) (timer : TimerRef) (d0 : Int),
        (TimerCallBack e timer 0 d0 task th s0).queues th = s0.queues th ++ [task]
        ∧ (∀ c, c ≠ th → (TimerCallBack e timer 0 d0 task th s0).queues c = s0.queues c)
        ∧ (TimerCallBack e timer 0 d0 task th s0).pending = s0.pending) := by
  obtain ⟨c1, c2, c3, _, c5, _⟩ := CreateOnceTimerTask_facts task d th s
  obtain ⟨r1, r2, _⟩ := run_cancels ids (CreateOnceTimerTask task d th s)
  have hp : (run (ids.map Op.cancel) (CreateOnceTimerTask task d th s)).pending
      = s.pending ++ [⟨s.next_timer, 0, d, task, th⟩] := by rw [r1, c3]
  have hfire := complete_last _ s.pending ⟨s.next_timer, 0, d, task, th⟩ err hp
  simp only [TimerCallBack_once] at hfire
  refine ⟨c2, c1, c5, c3, hp, ?_, ?_, ?_, ?_, ?_, ?_⟩
  · rw [hfire]; simp [PostTask, r2, c5]
  · intro c hc
    rw [hfire]; simp [PostTask, r2, c5, hc]
  · rw [hfire]; rfl
  · rw [hfire]; rfl
  · intro err2
    apply complete_out_of_range
    rw [hfire]
    exact le_refl _
  · intro s0 e timer d0
    rw [TimerCallBack_once]
    simp [PostTask]

/-- C8, as stated, fails in the state of a Timer whose counter has gone once
around the range of `int` (4294967295 calls of CreateTimerTask): there
CreateTimerTask returns the sentinel 0, and with n = 0 expiries before the
cancel, one further run of the completion handler of that timer after
CancelTimerTask(0) still posts the task, so the queue holds one copy where the
claim says none. -/
theorem C8_sentinel_id_survives_cancel :
    Reachable wrappedState
    ∧ (CreateTimerTask 9 1 4 wrappedState).1 = 0
    ∧ (∀ op ∈ [Op.expire wrappedState.pending.length 0],
        Op.isHandlerRun (CreateTimerTask 9 1 4 wrappedState).1 wrappedState.pending.length op
          = true)
    ∧ (run [Op.expire wrappedState.pending.length 0]
        (CancelTimerTask (CreateTimerTask 9 1 4 wrappedState).1
          (run (firings wrappedState.pending.length []) (CreateTimerTask 9 1 4 wrappedState).2))).queues 4
      = wrappedState.queues 4 ++ [9]
    ∧ (run [Op.expire wrappedState.pending.length 0]
        (CancelTimerTask (CreateTimerTask 9 1 4 wrappedState).1
          (run (firings wrappedState.pending.length []) (CreateTimerTask 9 1 4 wrappedState).2))).queues 4
      ≠ wrappedState.queues 4 ++ List.replicate ([] : List (Time × Int)).length 9 := by
  have hq := sentinel_timer_survives_cancel wrappedState wrappedState_timer_id_ 9 1 4 0
  refine ⟨⟨_, rfl⟩, ?_, ?_, hq, ?_⟩
  · rw [(CreateTimerTask_facts 9 1 4 _).1, wrappedState_timer_id_]
  · intro op hop
    have hop2 : op = Op.expire wrappedState.pending.length 0 := by simpa using hop
    rw [hop2]
    simp [Op.isHandlerRun]
  · rw [hq]
    simp

/-- C8, amended: starting from any state in which CreateTimerTask returns an id
other than the sentinel 0 (the id counter is not 0), for every delay (positive
ones in particular) and every n: create a periodic timer for `task` on context
`th`, let the reactor complete its wait n times (at arbitrary observed times
and with arbitrary error codes), cancel the returned id, then let any number
of further handler runs for that id happen.  The queue of `th` has gained
exactly n copies of `task`, every other queue is unchanged, and nothing was
posted after the cancel; with n = 0 the task is never posted. -/
theorem C8_fire_n_then_cancel (s : State) (task : Task) (d : Int)
    (th : ThreadRef) (hid0 : (CreateTimerTask task d th s).1 ≠ 0)
    (obs : List (Time × Int)) (later : List Op)
    (hl : ∀ op ∈ later,
      Op.isHandlerRun (CreateTimerTask task d th s).1 s.pending.length op = true) :
    (run later (CancelTimerTask (CreateTimerTask task d th s).1
        (run (firings s.pending.length obs) (CreateTimerTask task d th s).2))).queues th
      = s.queues th ++ List.replicate obs.length task
    ∧ (∀ c, c ≠ th →
        (run later (CancelTimerTask (CreateTimerTask task d th s).1
          (run (firings s.pending.length obs) (CreateTimerTask task d th s).2))).queues c
        = s.queues c)
    ∧ (run later (CancelTimerTask (CreateTimerTask task d th s).1
        (run (firings s.pending.length obs) (CreateTimerTask task d th s).2))).queues
      = (CancelTimerTask (CreateTimerTask task d th s).1
          (run (firings s.pending.length obs) (CreateTimerTask task d th s).2)).queues := by
  obtain ⟨c1, _, c3, c4, _, c6, _⟩ := CreateTimerTask_facts task d th s
  have hid : s.timer_id_ ≠ 0 := by
    rw [c1] at hid0
    exact hid0
  rw [c1] at hl ⊢
  have hlive : mapFind s.timer_id_ (CreateTimerTask task d th s).2.timer_list_ ≠ none := by
    rw [c3, mapFind_mapAssign_self]; simp
  obtain ⟨b1, _, _, b4, b5⟩ :=
    run_firings_live s.pending ⟨s.next_timer, s.timer_id_, d, task, th⟩ hid obs _ c4 hlive
  have hq := run_handler_runs_after_cancel s.timer_id_ hid s.pending
    ⟨s.next_timer, s.timer_id_, d, task, th⟩ rfl later hl
    (CancelTimerTask s.timer_id_
      (run (firings s.pending.length obs) (CreateTimerTask task d th s).2))
    (mapFind_mapErase_self _ _) (Or.inl b1)
  refine ⟨?_, ?_, hq⟩
  · rw [hq]
    show (run (firings s.pending.length obs) (CreateTimerTask task d th s).2).queues th = _
    rw [b4, c6]
  · intro c hc
    rw [hq]
    show (run (firings s.pending.length obs) (CreateTimerTask task d th s).2).queues c = _
    rw [b5 c hc, c6]

theorem C8_fire_n_then_cancel_witness :
    (CreateTimerTask 9 1 4 sampleState).1 ≠ 0
    ∧ (∀ op ∈ [Op.expire 1 0, Op.callBack 0 1 2 1 7 3, Op.expire 1 0],
        Op.isHandlerRun (CreateTimerTask 9 1 4 sampleState).1 sampleState.pending.length op
          = true)
    ∧ (run [Op.expire 1 0, Op.callBack 0 1 2 1 7 3, Op.expire 1 0]
        (CancelTimerTask (CreateTimerTask 9 1 4 sampleState).1
          (run (firings sampleState.pending.length [(1000000, 0), (2000007, 0), (3000100, 0)])
            (CreateTimerTask 9 1 4 sampleState).2))).queues 4
      = sampleState.queues 4
          ++ List.replicate ([(1000000, 0), (2000007, 0), (3000100, 0)] : List (Time × Int)).length
              9 :=
  ⟨by decide, by decide,
   (C8_fire_n_then_cancel sampleState 9 1 4 (by decide)
      [(1000000, 0), (2000007, 0), (3000100, 0)]
      [Op.expire 1 0, Op.callBack 0 1 2 1 7 3, Op.expire 1 0] (by decide)).1⟩

/-- C9, as stated, fails once the `int` counter has run through its range.  On
a fresh Timer, after 2147483647 calls of CreateTimerTask the key 2147483647 is
in the registry while timer_id_ is -2147483648, so that key is not below the
counter; after 4294967296 calls the sentinel 0 is a key of the registry. -/
theorem C9_registry_bounds_fail :
    (mapFind 2147483647
        (run (List.replicate 2147483646 (Op.create 7 1 3) ++ [Op.create 7 1 3])
          Timer.new).timer_list_ ≠ none
      ∧ (run (List.replicate 2147483646 (Op.create 7 1 3) ++ [Op.create 7 1 3])
          Timer.new).timer_id_ = -2147483648)
    ∧ mapFind 0
        (run (List.replicate 4294967295 (Op.create 7 1 3) ++ [Op.create 7 1 3])
          Timer.new).timer_list_ ≠ none := by
  have h1 := snoc_create_key (List.replicate 2147483646 (Op.create 7 1 3)) 7 1 3
  have h2 := snoc_create_key (List.replicate 4294967295 (Op.create 7 1 3)) 7 1 3
  rw [run_new_timer_id_, createCount_replicate_create] at h1 h2
  have e1 : wrapInt (1 + ((2147483646 : Nat) : Int)) = 2147483647 := by decide
  have e2 : wrapInt (1 + ((4294967295 : Nat) : Int)) = 0 := by decide
  rw [e1] at h1
  rw [e2] at h2
  refine ⟨⟨by rw [h1]; exact Option.some_ne_none _, ?_⟩,
    by rw [h2]; exact Option.some_ne_none _⟩
  rw [run_new_timer_id_, createCount_append, createCount_replicate_create]
  decide

/-- C9, amended: registry invariant, for runs with fewer than 2147483647 calls
of CreateTimerTask (the counter has not left the positive range of `int`).  In
every state reached from a fresh Timer by such a run of completed
CreateTimerTask, CreateOnceTimerTask, CancelTimerTask and TimerCallBack
steps: an entry (k, h) is in the registry exactly when some
CreateTimerTask call of the run returned k, creating the timer object h, and
no later step of the run canceled k; so the keys are exactly the ids returned
and not canceled afterwards.  No key occurs twice, every key k satisfies
1 <= k < timer_id_, the sentinel 0 is not a key, and the id the next
CreateTimerTask call will use is not a key (no call overwrites a live entry).
TimerCallBack, the completion of a wait, and CreateOnceTimerTask leave the
registry as it is, in any state. -/
theorem C9_registry_invariant (ops : List Op) (hbd : createCount ops < 2147483647) :
    (∀ (k : Int) (h : TimerRef),
        (k, h) ∈ (run ops Timer.new).timer_list_ ↔ issued ops k h)
    ∧ (∀ (k : Int) (h : TimerRef),
        mapFind k (run ops Timer.new).timer_list_ = some h ↔ issued ops k h)
    ∧ (∀ k : Int,
        k ∈ (run ops Timer.new).timer_list_.map Prod.fst ↔ ∃ h, issued ops k h)
    ∧ ((run ops Timer.new).timer_list_.map Prod.fst).Nodup
    ∧ (∀ e ∈ (run ops Timer.new).timer_list_,
        1 ≤ e.1 ∧ e.1 < (run ops Timer.new).timer_id_)
    ∧ mapFind 0 (run ops Timer.new).timer_list_ = none
    ∧ mapFind (run ops Timer.new).timer_id_ (run ops Timer.new).timer_list_ = none
    ∧ (∀ (s : State) (err : Int) (timer : TimerRef) (id d : Int) (task : Task) (th : ThreadRef),
        (TimerCallBack err timer id d task th s).timer_list_ = s.timer_list_)
    ∧ (∀ (s : State) (i : Nat) (err : Int), (complete i err s).timer_list_ = s.timer_list_)
    ∧ (∀ (s : State) (task : Task) (d : Int) (th : ThreadRef),
        (CreateOnceTimerTask task d th s).timer_list_ = s.timer_list_) := by
  obtain ⟨_, hb, hn⟩ := run_RegistryOk ops Timer.new RegistryOk_new
    (by simp only [Timer.new]; omega)
  refine ⟨?_, mapFind_run_iff_issued ops hbd, ?_, hn, hb, ?_, ?_, ?_, ?_, ?_⟩
  · intro k h
    rw [mem_iff_mapFind_of_nodup k h _ hn, mapFind_run_iff_issued ops hbd]
  · intro k
    rw [mem_keys_iff_mapFind]
    exact exists_congr (fun h => mapFind_run_iff_issued ops hbd k h)
  · rw [mapFind_eq_none_iff]
    intro e he h0
    have := (hb e he).1
    omega
  · rw [mapFind_eq_none_iff]
    intro e he h0
    have := (hb e he).2
    omega
  · intro s err timer id d task th
    exact TimerCallBack_timer_list_ err timer id d task th s
  · intro s i err
    exact complete_timer_list_ i err s
  · intro s task d th
    exact (CreateOnceTimerTask_facts task d th s).2.1

theorem C9_registry_invariant_witness :
    createCount [Op.create 7 2 3, Op.cancel 1, Op.create 9 1 4, Op.expire 0 0] < 2147483647
    ∧ ((run [Op.create 7 2 3, Op.cancel 1, Op.create 9 1 4, Op.expire 0 0]
          Timer.new).timer_list_.map Prod.fst).Nodup
    ∧ (∀ e ∈ (run [Op.create 7 2 3, Op.cancel 1, Op.create 9 1 4, Op.expire 0 0]
          Timer.new).timer_list_,
        1 ≤ e.1
        ∧ e.1 < (run [Op.create 7 2 3, Op.cancel 1, Op.create 9 1 4, Op.expire 0 0]
            Timer.new).timer_id_)
    ∧ mapFind 0 (run [Op.create 7 2 3, Op.cancel 1, Op.create 9 1 4, Op.expire 0 0]
          Timer.new).timer_list_ = none :=
  ⟨by decide,
   (C9_registry_invariant [Op.create 7 2 3, Op.cancel 1, Op.create 9 1 4, Op.expire 0 0]
      (by decide)).2.2.2.1,
   (C9_registry_invariant [Op.create 7 2 3, Op.cancel 1, Op.create 9 1 4, Op.expire 0 0]
      (by decide)).2.2.2.2.1,
   (C9_registry_invariant [Op.create 7 2 3, Op.cancel 1, Op.create 9 1 4, Op.expire 0 0]
      (by decide)).2.2.2.2.2.1⟩

/-- C10, as stated, fails: on a fresh Timer, CreateTimerTask with delay 0
returns the id 1, advances the counter to 2, inserts id 1 into the registry and
arms a wait; CreateOnceTimerTask with delay -5 arms a wait as well.  Nothing is
rejected. -/
theorem C10_nonpositive_delay_not_rejected :
    (CreateTimerTask 7 0 3 Timer.new).1 = 1
    ∧ (CreateTimerTask 7 0 3 Timer.new).2.timer_id_ = 2
    ∧ (CreateTimerTask 7 0 3 Timer.new).2.timer_list_ = [(1, 0)]
    ∧ (CreateTimerTask 7 0 3 Timer.new).2.pending = [⟨0, 1, 0, 7, 3⟩]
    ∧ (CreateOnceTimerTask 7 (-5) 3 Timer.new).pending = [⟨0, 0, -5, 7, 3⟩] := by
  decide

/-- C10, amended: for every delay_seconds <= 0 (as for every other value)
CreateTimerTask and CreateOnceTimerTask accept the call and report nothing.
CreateTimerTask returns the current value of the counter as the id, advances
the counter by one (as an `int`), maps the id to a new timer object in the registry and arms
one wait for it; CreateOnceTimerTask leaves registry and counter alone and arms
one wait bound to the id 0.  In both cases the expiry of the new timer is the
current time plus delay_seconds seconds, which is not later than the current
time. -/
theorem C10_nonpositive_delay_accepted (s : State) (task : Task) (d : Int) (th : ThreadRef)
    (hd : d ≤ 0) :
    ((CreateTimerTask task d th s).1 = s.timer_id_
      ∧ (CreateTimerTask task d th s).2.timer_id_ = wrapInt (s.timer_id_ + 1)
      ∧ mapFind s.timer_id_ (CreateTimerTask task d th s).2.timer_list_ = some s.next_timer
      ∧ (CreateTimerTask task d th s).2.pending
          = s.pending ++ [⟨s.next_timer, s.timer_id_, d, task, th⟩]
      ∧ (CreateTimerTask task d th s).2.expires_at s.next_timer = s.clock + seconds d
      ∧ (CreateTimerTask task d th s).2.expires_at s.next_timer ≤ s.clock)
    ∧ ((CreateOnceTimerTask task d th s).timer_id_ = s.timer_id_
      ∧ (CreateOnceTimerTask task d th s).timer_list_ = s.timer_list_
      ∧ (CreateOnceTimerTask task d th s).pending
          = s.pending ++ [⟨s.next_timer, 0, d, task, th⟩]
      ∧ (CreateOnceTimerTask task d th s).expires_at s.next_timer = s.clock + seconds d
      ∧ (CreateOnceTimerTask task d th s).expires_at s.next_timer ≤ s.clock) := by
  obtain ⟨c1, c2, c3, c4, c5, _, _⟩ := CreateTimerTask_facts task d th s
  obtain ⟨o1, o2, o3, o4, _, _⟩ := CreateOnceTimerTask_facts task d th s
  have hsec : seconds d ≤ 0 := by
    show d * 1000000 ≤ 0
    linarith
  refine ⟨⟨c1, c2, ?_, c4, c5, ?_⟩, ⟨o1, o2, o3, o4, ?_⟩⟩
  · rw [c3, mapFind_mapAssign_self]
  · rw [c5]; linarith
  · rw [o4]; linarith

theorem C10_nonpositive_delay_accepted_witness :
    (0 : Int) ≤ 0
    ∧ (CreateTimerTask 7 0 3 sampleState).1 = sampleState.timer_id_
    ∧ (CreateOnceTimerTask 7 0 3 sampleState).pending
        = sampleState.pending ++ [⟨sampleState.next_timer, 0, 0, 7, 3⟩] :=
  ⟨le_refl _, (C10_nonpositive_delay_accepted sampleState 7 0 3 (le_refl _)).1.1,
   (C10_nonpositive_delay_accepted sampleState 7 0 3 (le_refl _)).2.2.2.1⟩

/-- C11: `CreateTimerTask` is three separately ordered blocks (allocate the id,
arm the timer, insert the id into the registry), and run back to back they are
the function.  From any state a scheduler is in while its counter has not left
the positive range of `int`, take the interleaving in which, once the wait is
armed and its expiry has been reached (at once when the delay is 0), the
reactor completes that wait before the third block runs.  At
that moment the id is absent from the registry, so the handler returns without
posting and without re-arming: the wait is consumed and nothing else changes.
The third block then inserts the id, which is the nonzero id returned to the
caller.  The state left behind maps the id to its timer object and has no
pending wait bound to it, and nothing was posted.  From then on, as long as
handlers run only when the reactor completes a pending wait, and until the
counter has gone around the whole range of `int` (4294967296 further calls of
CreateTimerTask), no wait bound to that id is ever pending, so its handler
never runs again and the timer never fires, while the id stays in the registry
until it is canceled. -/
theorem C11_create_overtaken_never_fires (s : State) (hs : ReachableInRange s) (task : Task)
    (d : Int) (th : ThreadRef) (now : Time) (err : Int) (hdue : s.clock + seconds d ≤ now) :
    ((allocTimerId s).1,
        insertTimer (allocTimerId s).1
          (armTimer (allocTimerId s).1 task d th (allocTimerId s).2).1 (armed task d th s))
      = CreateTimerTask task d th s
    ∧ (armed task d th s).pending
        = s.pending ++ [⟨s.next_timer, (CreateTimerTask task d th s).1, d, task, th⟩]
    ∧ isDue s.pending.length { armed task d th s with clock := now } = true
    ∧ mapFind (CreateTimerTask task d th s).1 (armed task d th s).timer_list_ = none
    ∧ complete s.pending.length err { armed task d th s with clock := now }
        = { armed task d th s with clock := now, pending := s.pending }
    ∧ (createOvertaken task d th now err s).1 = (CreateTimerTask task d th s).1
    ∧ (createOvertaken task d th now err s).1 ≠ 0
    ∧ mapFind (createOvertaken task d th now err s).1
          (createOvertaken task d th now err s).2.timer_list_ = some s.next_timer
    ∧ (createOvertaken task d th now err s).2.pending = s.pending
    ∧ (∀ w ∈ (createOvertaken task d th now err s).2.pending,
        w.timer_id ≠ (createOvertaken task d th now err s).1)
    ∧ (createOvertaken task d th now err s).2.queues = s.queues
    ∧ (∀ later : List Op, (∀ op ∈ later, Op.isCallBack op = false) →
        createCount later < 4294967296 →
        (∀ w ∈ (run later (createOvertaken task d th now err s).2).pending,
            w.timer_id ≠ (createOvertaken task d th now err s).1)
        ∧ (Op.cancel (createOvertaken task d th now err s).1 ∉ later →
            mapFind (createOvertaken task d th now err s).1
                (run later (createOvertaken task d th now err s).2).timer_list_
              = some s.next_timer)) := by
  obtain ⟨h1, hb, _⟩ := hs.registryOk
  have hp := hs.pendingOk
  have hlt := hs.timer_id_lt
  have hid : s.timer_id_ ≠ 0 := by omega
  have hret : (CreateTimerTask task d th s).1 = s.timer_id_ := rfl
  have hpend : (armed task d th s).pending
      = s.pending ++ [⟨s.next_timer, s.timer_id_, d, task, th⟩] := by
    simp [armed, armTimer, allocTimerId, asyncWait, newDeadlineTimer]
  have hexp : (armed task d th s).expires_at s.next_timer = s.clock + seconds d := by
    simp [armed, armTimer, allocTimerId, asyncWait, newDeadlineTimer]
  have hlist : (armed task d th s).timer_list_ = s.timer_list_ := rfl
  have habs : mapFind s.timer_id_ (armed task d th s).timer_list_ = none := by
    rw [hlist, mapFind_eq_none_iff]
    intro e he hk
    have := (hb e he).2
    omega
  have hcomp : complete s.pending.length err { armed task d th s with clock := now }
      = { armed task d th s with clock := now, pending := s.pending } := by
    rw [complete_last { armed task d th s with clock := now } s.pending
      ⟨s.next_timer, s.timer_id_, d, task, th⟩ err hpend]
    exact TimerCallBack_absent _ _ _ _ _ _ _ hid habs
  have hfin : (createOvertaken task d th now err s).2
      = insertTimer s.timer_id_ s.next_timer
          { armed task d th s with clock := now, pending := s.pending } := by
    show insertTimer s.timer_id_ s.next_timer
        (complete s.pending.length err { armed task d th s with clock := now }) = _
    rw [hcomp]
  have hfree : ∀ w ∈ s.pending, w.timer_id ≠ s.timer_id_ := by
    intro w hw
    have := hp w hw
    omega
  have hfind : mapFind s.timer_id_ (createOvertaken task d th now err s).2.timer_list_
      = some s.next_timer := by
    rw [hfin]
    exact mapFind_mapAssign_self _ _ _
  have hpend2 : (createOvertaken task d th now err s).2.pending = s.pending := by
    rw [hfin]; rfl
  have hctr : (createOvertaken task d th now err s).2.timer_id_
      = wrapInt (s.timer_id_ + 1) := by
    rw [hfin]; rfl
  have hctr1 := (wrapInt_range (s.timer_id_ + 1)).1
  have hctr2 := (wrapInt_range (s.timer_id_ + 1)).2
  refine ⟨rfl, hpend, ?_, habs, hcomp, rfl, hid, hfind, hpend2, ?_, ?_, ?_⟩
  · have hget : (s.pending ++ [(⟨s.next_timer, s.timer_id_, d, task, th⟩ : Wait)]).get?
        s.pending.length = some ⟨s.next_timer, s.timer_id_, d, task, th⟩ := by simp
    unfold isDue
    simp only [hpend, hget]
    simp only [hexp]
    exact decide_eq_true hdue
  · rw [hpend2]; exact hfree
  · rw [hfin]; rfl
  · intro later hl hcnt
    have hdist : (createCount later : Int)
        ≤ (s.timer_id_ - (createOvertaken task d th now err s).2.timer_id_) % 4294967296 := by
      rw [hctr]
      unfold wrapInt
      omega
    constructor
    · exact run_no_wait_for s.timer_id_ hid later hl _
        (by rw [hctr]; exact hctr1) (by rw [hctr]; exact hctr2) hdist
        (by rw [hpend2]; exact hfree)
    · intro hc
      exact run_keeps_entry s.timer_id_ s.next_timer later hc _
        (by rw [hctr]; exact hctr1) (by rw [hctr]; exact hctr2) hdist hfind

theorem C11_create_overtaken_never_fires_witness :
    ReachableInRange sampleState
    ∧ sampleState.clock + seconds 0 ≤ 0
    ∧ (createOvertaken 9 0 4 0 0 sampleState).1 = 2
    ∧ mapFind 2 (createOvertaken 9 0 4 0 0 sampleState).2.timer_list_ = some 1
    ∧ (createOvertaken 9 0 4 0 0 sampleState).2.pending = sampleState.pending
    ∧ (∀ op ∈ [Op.tick 5000000, Op.expire 1 0, Op.expire 0 0, Op.tick 9000000, Op.expire 0 0],
        Op.isCallBack op = false)
    ∧ createCount [Op.tick 5000000, Op.expire 1 0, Op.expire 0 0, Op.tick 9000000, Op.expire 0 0]
        < 4294967296
    ∧ (∀ w ∈ (run [Op.tick 5000000, Op.expire 1 0, Op.expire 0 0, Op.tick 9000000, Op.expire 0 0]
          (createOvertaken 9 0 4 0 0 sampleState).2).pending,
        w.timer_id ≠ (createOvertaken 9 0 4 0 0 sampleState).1) :=
  ⟨⟨[Op.create 7 2 3], by decide, rfl⟩, by decide, by decide, by decide, by decide, by decide,
   by decide,
   ((C11_create_overtaken_never_fires sampleState ⟨[Op.create 7 2 3], by decide, rfl⟩ 9 0 4 0 0
      (by decide)).2.2.2.2.2.2.2.2.2.2.2
      [Op.tick 5000000, Op.expire 1 0, Op.expire 0 0, Op.tick 9000000, Op.expire 0 0]
      (by decide) (by decide)).1⟩

end async
